import Mathlib

/-!
Shallow embedding of the visual-mode selection engine
(`crates/vim/src/visual.rs`): motion extension, characterwise and linewise
change/delete adjusters, and the operation drivers, together with the
external collaborators (display map, selection primitives, clipboard and
buffer edit) modelled from the design document where their code is not part
of the included source.
-/

set_option linter.unusedVariables false

namespace VisualVim

/-- Modelled from the spec: the two-valued clipping-direction hint (§3
"Bias"); the `Bias` type lives in the editor crate, outside the included
source. -/
inductive Bias where
  | Left
  | Right
deriving DecidableEq

/-- Modelled from the spec: a display-space position, an ordered pair of a
non-negative row and column (§3 "Position"); `DisplayPoint` lives in the
editor crate. -/
structure DisplayPoint where
  row : Nat
  column : Nat
deriving DecidableEq

/-- Modelled from the spec: the total order on positions, comparing row
first and then column (§3). -/
def DisplayPoint.Le (a b : DisplayPoint) : Prop :=
  a.row < b.row ∨ (a.row = b.row ∧ a.column ≤ b.column)

/-- Strict version of the position order. -/
def DisplayPoint.Lt (a b : DisplayPoint) : Prop :=
  a.row < b.row ∨ (a.row = b.row ∧ a.column < b.column)

instance (a b : DisplayPoint) : Decidable (DisplayPoint.Le a b) :=
  inferInstanceAs (Decidable (a.row < b.row ∨ (a.row = b.row ∧ a.column ≤ b.column)))

instance (a b : DisplayPoint) : Decidable (DisplayPoint.Lt a b) :=
  inferInstanceAs (Decidable (a.row < b.row ∨ (a.row = b.row ∧ a.column < b.column)))

/-- Modelled from the spec: the sticky horizontal goal column (§3 "goal");
the `SelectionGoal` type lives in the editor crate. -/
inductive SelectionGoal where
  | none
  | column (c : Nat)
deriving DecidableEq

/-- Modelled from the spec: the per-cursor selection state (§3
"Selection"); the `Selection` type lives in the editor crate.  `start` and
`end` are the derived low and high boundaries, `reversed` marks that the
head sits at the low boundary, `goal` is the sticky column and `id` the
stable identity of the cursor. -/
structure Selection where
  id : Nat
  start : DisplayPoint
  «end» : DisplayPoint
  reversed : Bool
  goal : SelectionGoal
deriving DecidableEq

/-- Modelled from the spec: the head is "where the cursor logically is"
(§3); it is the low boundary of a reversed selection and the high boundary
otherwise. -/
def Selection.head (s : Selection) : DisplayPoint :=
  if s.reversed then s.start else s.«end»

/-- Modelled from the spec: the tail (anchor) is the boundary opposite the
head (§3 "anchor"). -/
def Selection.tail (s : Selection) : DisplayPoint :=
  if s.reversed then s.«end» else s.start

/-- Modelled from the spec: `Selection::set_head` lives in the editor
crate.  Per §3, `start = min(anchor, head)`, `end = max(anchor, head)` and
`reversed` is recomputed, never independently set, as `head == start`; so
when the new head does not exceed the anchor the selection is stored
reversed (in particular a selection collapsed onto its anchor has
`reversed = true`, the only value satisfying §3's biconditional). -/
def Selection.set_head (s : Selection) (h : DisplayPoint) (g : SelectionGoal) : Selection :=
  if DisplayPoint.Le h s.tail then
    { s with start := h, «end» := s.tail, reversed := true, goal := g }
  else
    { s with start := s.tail, «end» := h, reversed := false, goal := g }

/-- Modelled from the spec: `Selection::collapse_to` lives in the editor
crate; it collapses the selection to a single cursor at the given point
(§4.2).  Both boundaries coincide with the head afterwards, and §3's
biconditional (`reversed` iff `head == start`) forces `reversed = true` for
a collapsed selection. -/
def Selection.collapse_to (s : Selection) (p : DisplayPoint) (g : SelectionGoal) : Selection :=
  { s with start := p, «end» := p, reversed := true, goal := g }

/-- Modelled from the spec: the display-map collaborator (§6) over a
concrete line-based text model: one list entry per display line, one column
per character, so every integer column from 0 to the line length is a valid
stop.  `clipAtLineEnds` is §6's toggle controlling whether positions are
eagerly clamped before the line's end (column at most length - 1) or may
rest one past the last character (column at most length). -/
structure DisplayMap where
  lines : List (List Char)
  clipAtLineEnds : Bool
deriving DecidableEq

/-- Row of the document's maximal position. -/
def DisplayMap.maxRow (m : DisplayMap) : Nat := m.lines.length - 1

/-- Modelled from the spec: `line_len(row) -> column` (§6), the number of
characters on the given display row. -/
def DisplayMap.line_len (m : DisplayMap) (row : Nat) : Nat :=
  (m.lines.getD row []).length

/-- Largest column a position may occupy on the given row: the line length
when line-end clipping is disabled, one less when it is enabled. -/
def DisplayMap.maxColumn (m : DisplayMap) (row : Nat) : Nat :=
  if m.clipAtLineEnds then m.line_len row - 1 else m.line_len row

/-- Modelled from the spec: `clip_point(Position, Bias) -> Position` (§6,
§3 "Bias").  In this character-grid model every in-range column is a valid
stop, so both biases snap an out-of-range coordinate to the nearest valid
one by clamping, and the bias argument does not change the result. -/
def DisplayMap.clip_point (m : DisplayMap) (p : DisplayPoint) (bias : Bias) : DisplayPoint :=
  let r := min p.row m.maxRow
  ⟨r, min p.column (m.maxColumn r)⟩

/-- Modelled from the spec: `clip_at_line_end(Position) -> Position` (§6,
§4.1 step 1), snapping a position to the nearest line-interior stop so the
head never lands one past a line's final character. -/
def DisplayMap.clip_at_line_end (m : DisplayMap) (p : DisplayPoint) : DisplayPoint :=
  let r := min p.row m.maxRow
  ⟨r, min p.column (m.line_len r - 1)⟩

/-- Modelled from the spec: `max_point() -> Position` (§6), the last valid
position of the document. -/
def DisplayMap.max_point (m : DisplayMap) : DisplayPoint :=
  ⟨m.maxRow, m.line_len m.maxRow⟩

/-- Modelled from the spec: the display-position component of
`prev_line_boundary(Position)` (§6): the beginning of the line containing
the given position (§4.3 step 1).  The offset component of the pair is not
used by the included source and is not modelled. -/
def DisplayMap.prev_line_boundary (m : DisplayMap) (p : DisplayPoint) : DisplayPoint :=
  ⟨p.row, 0⟩

/-- Modelled from the spec: the display-position component of
`next_line_boundary(Position)` (§6): the end of the line containing the
given position (§4.3 step 4). -/
def DisplayMap.next_line_boundary (m : DisplayMap) (p : DisplayPoint) : DisplayPoint :=
  ⟨p.row, m.line_len p.row⟩

/-- The per-selection body of `visual_motion`'s `move_with` closure
(visual.rs lines 29-46): compute the motion target from the old head and
goal, clip it at the line end, set the head, and repair the boundary that
the head abandoned when the selection's direction flipped.  The motion
engine is passed as a pure function (§6 "move_point"), and
`u32::saturating_sub` is natural-number subtraction. -/
def visual_motion_sel (m : DisplayMap)
    (motion : DisplayPoint → SelectionGoal → DisplayPoint × SelectionGoal)
    (sel : Selection) : Selection :=
  let moved := motion sel.head sel.goal
  let new_head := m.clip_at_line_end moved.1
  let was_reversed := sel.reversed
  let s1 := sel.set_head new_head moved.2
  if was_reversed && !s1.reversed then
    { s1 with start := m.clip_point ⟨s1.start.row, s1.start.column - 1⟩ Bias.Left }
  else if !was_reversed && s1.reversed then
    { s1 with «end» := m.clip_point ⟨s1.«end».row, s1.«end».column + 1⟩ Bias.Right }
  else s1

/-- `visual_motion` runs the closure on every selection (visual.rs lines
25-50). -/
def visual_motion (m : DisplayMap)
    (motion : DisplayPoint → SelectionGoal → DisplayPoint × SelectionGoal)
    (sels : List Selection) : List Selection :=
  sels.map (visual_motion_sel m motion)

/-- The per-selection body of `change`'s `move_with` closure (visual.rs
lines 57-64): a non-reversed selection's end column is extended by one and
clipped with bias `Left`; a reversed selection is untouched. -/
def change_adjust (m : DisplayMap) (sel : Selection) : Selection :=
  if !sel.reversed then
    { sel with «end» := m.clip_point ⟨sel.«end».row, sel.«end».column + 1⟩ Bias.Left }
  else sel

/-- The per-selection body of `delete`'s first `move_with` closure
(visual.rs lines 96-102): a non-reversed selection's end column is extended
by one and clipped with bias `Right`; a reversed selection is untouched. -/
def delete_adjust (m : DisplayMap) (sel : Selection) : Selection :=
  if !sel.reversed then
    { sel with «end» := m.clip_point ⟨sel.«end».row, sel.«end».column + 1⟩ Bias.Right }
  else sel

/-- The per-selection body of `change_line`'s `move_with` closure
(visual.rs lines 78-81): move start to the previous line boundary and end
to the next line boundary. -/
def change_line_adjust (m : DisplayMap) (sel : Selection) : Selection :=
  { sel with start := m.prev_line_boundary sel.start,
             «end» := m.next_line_boundary sel.«end» }

/-- The recording pass of `delete_line` (visual.rs line 128): before any
mutation, every selection's head column is inserted into the
`original_columns` table keyed by the selection id. -/
def delete_line_record (sels : List Selection) : List (Nat × Nat) :=
  sels.map fun s => (s.id, s.head.column)

/-- The mutating part of `delete_line`'s first `move_with` closure
(visual.rs lines 129-141): move start to the previous line boundary; if
end's row is before the last row, set end to the start of the following row
and return early; otherwise, after pulling start back one row (when
possible) with its column set to that row's length, set end to the next
line boundary. -/
def delete_line_adjust (m : DisplayMap) (sel : Selection) : Selection :=
  let sel := { sel with start := m.prev_line_boundary sel.start }
  if sel.«end».row < m.max_point.row then
    { sel with «end» := ⟨sel.«end».row + 1, 0⟩ }
  else
    let sel :=
      if sel.start.row > 0 then
        { sel with start := ⟨sel.start.row - 1, m.line_len (sel.start.row - 1)⟩ }
      else sel
    { sel with «end» := m.next_line_boundary sel.«end» }

/-- The per-selection body of `delete`'s fix-up `move_with` closure
(visual.rs lines 109-113): collapse to the head clipped with bias
`Left`. -/
def delete_fixup (m : DisplayMap) (sel : Selection) : Selection :=
  let cursor := m.clip_point sel.head Bias.Left
  sel.collapse_to cursor sel.goal

/-- The per-selection body of `delete_line`'s fix-up `move_with` closure
(visual.rs lines 150-156): take the head, overwrite its column from the
recorded table when the selection's id is present, clip with bias `Left`
and collapse. -/
def delete_line_fixup (m : DisplayMap) (cols : List (Nat × Nat)) (sel : Selection) : Selection :=
  let cursor := sel.head
  let cursor : DisplayPoint :=
    match cols.lookup sel.id with
    | some column => ⟨cursor.row, column⟩
    | none => cursor
  let cursor := m.clip_point cursor Bias.Left
  sel.collapse_to cursor sel.goal

/-- Modelled from the spec: the text of the exclusive range `[a, b)` of the
buffer, lines joined by newline characters (§6 "Clipboard" records removed
text); the extraction lives in `utils::copy_selections_content`, outside
the included source. -/
def sliceRange (buf : List (List Char)) (a b : DisplayPoint) : List Char :=
  if a.row = b.row then ((buf.getD a.row []).take b.column).drop a.column
  else
    ((buf.getD a.row []).drop a.column ++ ['\n'])
      ++ (((buf.drop (a.row + 1)).take (b.row - (a.row + 1))).foldr
            (fun l acc => l ++ '\n' :: acc) [])
      ++ (buf.getD b.row []).take b.column

/-- Modelled from the spec: the buffer-edit collaborator `replace(range,
text)` (§6) applied with empty text: the exclusive range `[a, b)` is
removed, merging the partial first and last lines. -/
def replaceRange (buf : List (List Char)) (a b : DisplayPoint) : List (List Char) :=
  buf.take a.row
    ++ [(buf.getD a.row []).take a.column ++ (buf.getD b.row []).drop b.column]
    ++ buf.drop (b.row + 1)

/-- Modelled from the spec: the effect of the empty-text replacement on the
selection itself (the editor's `insert` lives outside the included source):
the selection collapses to the start of the replaced range, the position
where the inserted empty text ends; `reversed = true` per §3's
biconditional for a collapsed selection. -/
def insert_collapse (sel : Selection) : Selection :=
  { sel with «end» := sel.start, reversed := true }

/-- The vim modes the included source switches to (state.rs, outside the
included source; only the two target modes of the four operations are
needed). -/
inductive Mode where
  | Normal
  | Insert
deriving DecidableEq

/-- The editor state threaded through one operation driver, for a single
selection: the buffer, the line-end clipping toggle, the selection, the
clipboard (captured text and linewise flag), the contents of the
`original_columns` side table built by the operation (empty when the
operation builds none) and the mode switched to. -/
structure EditorState where
  buffer : List (List Char)
  clipAtLineEnds : Bool
  sel : Selection
  clipboard : Option (List Char × Bool)
  recorded : List (Nat × Nat)
  mode : Mode
deriving DecidableEq

/-- The `change` driver (visual.rs lines 52-71): disable line-end clipping,
run the characterwise adjuster, copy the selected content (non-linewise),
replace it with empty text, and switch to insert mode.  No fix-up pass runs
and line-end clipping is never re-enabled; the source builds no
`original_columns` table, so `recorded` is empty. -/
def change (st : EditorState) : EditorState :=
  let m : DisplayMap := { lines := st.buffer, clipAtLineEnds := false }
  let s1 := change_adjust m st.sel
  let clip := (sliceRange st.buffer s1.start s1.«end», false)
  let buf := replaceRange st.buffer s1.start s1.«end»
  let s2 := insert_collapse s1
  { buffer := buf, clipAtLineEnds := false, sel := s2,
    clipboard := some clip, recorded := [], mode := Mode.Insert }

/-- The `change_line` driver (visual.rs lines 73-88): disable line-end
clipping, run the linewise adjuster, copy the selected content (linewise),
replace it with empty text, and switch to insert mode.  The source records
no per-selection columns and runs no fix-up pass, so `recorded` is
empty. -/
def change_line (st : EditorState) : EditorState :=
  let m : DisplayMap := { lines := st.buffer, clipAtLineEnds := false }
  let s1 := change_line_adjust m st.sel
  let clip := (sliceRange st.buffer s1.start s1.«end», true)
  let buf := replaceRange st.buffer s1.start s1.«end»
  let s2 := insert_collapse s1
  { buffer := buf, clipAtLineEnds := false, sel := s2,
    clipboard := some clip, recorded := [], mode := Mode.Insert }

/-- The `delete` driver (visual.rs lines 90-120): disable line-end
clipping, run the characterwise adjuster, copy the selected content
(non-linewise), replace it with empty text, re-enable line-end clipping,
run the fix-up pass on the collapsed selection, and switch to normal
mode. -/
def delete (st : EditorState) : EditorState :=
  let m : DisplayMap := { lines := st.buffer, clipAtLineEnds := false }
  let s1 := delete_adjust m st.sel
  let clip := (sliceRange st.buffer s1.start s1.«end», false)
  let buf := replaceRange st.buffer s1.start s1.«end»
  let s2 := insert_collapse s1
  let m1 : DisplayMap := { lines := buf, clipAtLineEnds := true }
  let s3 := delete_fixup m1 s2
  { buffer := buf, clipAtLineEnds := true, sel := s3,
    clipboard := some clip, recorded := [], mode := Mode.Normal }

/-- The `delete_line` driver (visual.rs lines 122-161): disable line-end
clipping, record every selection's head column keyed by id, run the
linewise adjuster, copy the selected content (linewise), replace it with
empty text, re-enable line-end clipping, run the column-restoring fix-up
pass, and switch to normal mode. -/
def delete_line (st : EditorState) : EditorState :=
  let m : DisplayMap := { lines := st.buffer, clipAtLineEnds := false }
  let cols := delete_line_record [st.sel]
  let s1 := delete_line_adjust m st.sel
  let clip := (sliceRange st.buffer s1.start s1.«end», true)
  let buf := replaceRange st.buffer s1.start s1.«end»
  let s2 := insert_collapse s1
  let m1 : DisplayMap := { lines := buf, clipAtLineEnds := true }
  let s3 := delete_line_fixup m1 cols s2
  { buffer := buf, clipAtLineEnds := true, sel := s3,
    clipboard := some clip, recorded := cols, mode := Mode.Normal }

/-- A position that actually lies in the document: its row exists and its
column does not exceed the largest column the current clipping toggle
allows on that row. -/
def DisplayMap.Valid (m : DisplayMap) (p : DisplayPoint) : Prop :=
  p.row < m.lines.length ∧ p.column ≤ m.maxColumn p.row

instance (m : DisplayMap) (p : DisplayPoint) : Decidable (m.Valid p) :=
  inferInstanceAs (Decidable (p.row < m.lines.length ∧ p.column ≤ m.maxColumn p.row))

/-- The spec's reversal-consistency invariant (§3, §8): the reversed flag
holds exactly when the head coincides with the low boundary. -/
def Selection.RevInv (s : Selection) : Prop :=
  s.reversed = true ↔ s.head = s.start

instance (s : Selection) : Decidable s.RevInv :=
  inferInstanceAs (Decidable (_ ↔ _))

/-- The intermediate selection state of `visual_motion` right after
`selection.set_head(new_head, goal)` (visual.rs line 32), before the
boundary repair. -/
def motion_step (m : DisplayMap)
    (motion : DisplayPoint → SelectionGoal → DisplayPoint × SelectionGoal)
    (sel : Selection) : Selection :=
  sel.set_head (m.clip_at_line_end (motion sel.head sel.goal).1)
    (motion sel.head sel.goal).2

/-- The linewise delete adjuster as the specification sentence describes
it: three mutually exclusive cases, where the middle case pulls `start`
back one row and says nothing further, so `end` keeps its value there and
is set to the end of its line only in the final case. -/
def delete_line_adjust_claimed (m : DisplayMap) (sel : Selection) : Selection :=
  let sel := { sel with start := m.prev_line_boundary sel.start }
  if sel.«end».row < m.max_point.row then
    { sel with «end» := ⟨sel.«end».row + 1, 0⟩ }
  else if sel.start.row > 0 then
    { sel with start := ⟨sel.start.row - 1, m.line_len (sel.start.row - 1)⟩ }
  else
    { sel with «end» := m.next_line_boundary sel.«end» }

/-- The claimed behaviour of the linewise change operation: the head column
is recorded keyed by the selection id, and after the edit the cursor's
column is restored from that record by the same policy as linewise delete
(overwrite the head's column with the record, then clip with bias `Left`
against the resulting buffer with line-end clipping re-enabled). -/
def change_line_restores_claimed (st : EditorState) : Prop :=
  (st.sel.id, st.sel.head.column) ∈ (change_line st).recorded ∧
  (change_line st).sel.head =
    DisplayMap.clip_point ⟨(change_line st).buffer, true⟩
      ⟨(change_line st).sel.head.row, st.sel.head.column⟩ Bias.Left

instance (st : EditorState) : Decidable (change_line_restores_claimed st) :=
  inferInstanceAs (Decidable (_ ∧ _))

/-- The claimed driver behaviour of a characterwise operation on initial
state `st` with adjusted selection `s1` and final state `r`: the adjusted
range's content is copied (non-linewise), replaced with empty text,
line-end clipping is re-enabled, and the selection collapses to a single
cursor at its head clipped with bias `Left` (which is exactly `delete`'s
fix-up applied to the post-edit selection). -/
def char_op_claimed (st : EditorState) (s1 : Selection) (r : EditorState) : Prop :=
  r.clipboard = some (sliceRange st.buffer s1.start s1.«end», false) ∧
  r.buffer = replaceRange st.buffer s1.start s1.«end» ∧
  r.clipAtLineEnds = true ∧
  r.sel = delete_fixup ⟨r.buffer, true⟩ (insert_collapse s1)

instance (st : EditorState) (s1 : Selection) (r : EditorState) :
    Decidable (char_op_claimed st s1 r) :=
  inferInstanceAs (Decidable (_ ∧ _ ∧ _ ∧ _))

theorem dp_le_refl (a : DisplayPoint) : a.Le a := by
  unfold DisplayPoint.Le; omega

theorem dp_le_total (a b : DisplayPoint) : a.Le b ∨ b.Le a := by
  unfold DisplayPoint.Le; omega

theorem dp_lt_of_not_le (a b : DisplayPoint) (h : ¬ a.Le b) : b.Lt a := by
  unfold DisplayPoint.Le at h; unfold DisplayPoint.Lt; omega

theorem dp_le_of_lt (a b : DisplayPoint) (h : a.Lt b) : a.Le b := by
  unfold DisplayPoint.Lt at h; unfold DisplayPoint.Le; omega

theorem dp_le_trans (a b c : DisplayPoint) (h1 : a.Le b) (h2 : b.Le c) : a.Le c := by
  unfold DisplayPoint.Le at *; omega

theorem dp_le_lt_trans (a b c : DisplayPoint) (h1 : a.Le b) (h2 : b.Lt c) : a.Lt c := by
  unfold DisplayPoint.Le at h1; unfold DisplayPoint.Lt at *; omega

theorem dp_lt_le_trans (a b c : DisplayPoint) (h1 : a.Lt b) (h2 : b.Le c) : a.Lt c := by
  unfold DisplayPoint.Le at h2; unfold DisplayPoint.Lt at *; omega

theorem dp_ne_of_lt (a b : DisplayPoint) (h : a.Lt b) : a ≠ b := by
  unfold DisplayPoint.Lt at h
  intro he
  cases he
  omega

theorem dp_clip_le_self (m : DisplayMap) (p : DisplayPoint) (bias : Bias) :
    (m.clip_point p bias).Le p := by
  unfold DisplayMap.clip_point DisplayPoint.Le
  dsimp only
  omega

theorem dp_pred_le (r c : Nat) : DisplayPoint.Le ⟨r, c - 1⟩ ⟨r, c⟩ := by
  unfold DisplayPoint.Le; dsimp only; omega

theorem dp_le_clip_succ (m : DisplayMap) (p : DisplayPoint) (bias : Bias)
    (h : m.Valid p) : p.Le (m.clip_point ⟨p.row, p.column + 1⟩ bias) := by
  obtain ⟨h1, h2⟩ := h
  unfold DisplayMap.clip_point DisplayPoint.Le
  dsimp only
  have hr : min p.row m.maxRow = p.row := by
    unfold DisplayMap.maxRow; omega
  rw [hr]
  omega

/-- C1: in motion extension, after the head is set to the clipped target,
a reversed-to-not-reversed flip decrements start's column by one
(saturating at zero, as natural-number subtraction) and clips start with
bias `Left`; a not-reversed-to-reversed flip increments end's column by one
and clips end with bias `Right`; and without a flip the selection is
exactly the state the head assignment produced, with no further repair. -/
theorem C1_motion_extension_repair (m : DisplayMap)
    (motion : DisplayPoint → SelectionGoal → DisplayPoint × SelectionGoal)
    (sel : Selection) :
    (sel.reversed = true ∧ (motion_step m motion sel).reversed = false →
      visual_motion_sel m motion sel =
        { motion_step m motion sel with
          start := m.clip_point
            ⟨(motion_step m motion sel).start.row,
             (motion_step m motion sel).start.column - 1⟩ Bias.Left }) ∧
    (sel.reversed = false ∧ (motion_step m motion sel).reversed = true →
      visual_motion_sel m motion sel =
        { motion_step m motion sel with
          «end» := m.clip_point
            ⟨(motion_step m motion sel).«end».row,
             (motion_step m motion sel).«end».column + 1⟩ Bias.Right }) ∧
    (sel.reversed = (motion_step m motion sel).reversed →
      visual_motion_sel m motion sel = motion_step m motion sel) := by
  refine ⟨?_, ?_, ?_⟩
  · rintro ⟨h1, h2⟩
    simp only [motion_step] at h2 ⊢
    simp [visual_motion_sel, h1, h2]
  · rintro ⟨h1, h2⟩
    simp only [motion_step] at h2 ⊢
    simp [visual_motion_sel, h1, h2]
  · intro h
    simp only [motion_step] at h ⊢
    cases hb : sel.reversed <;> rw [hb] at h <;>
      simp [visual_motion_sel, hb, ← h]

/-- Witness for C1: a concrete run through the not-reversed-to-reversed
branch on a two-line buffer. -/
theorem C1_motion_extension_repair_witness :
    visual_motion_sel ⟨[['a', 'b'], ['c', 'd']], false⟩
        (fun _ _ => (⟨0, 0⟩, SelectionGoal.none))
        ⟨0, ⟨0, 1⟩, ⟨1, 1⟩, false, SelectionGoal.none⟩ =
      ⟨0, ⟨0, 0⟩, ⟨0, 2⟩, true, SelectionGoal.none⟩ := by
  have h := (C1_motion_extension_repair ⟨[['a', 'b'], ['c', 'd']], false⟩
    (fun _ _ => (⟨0, 0⟩, SelectionGoal.none))
    ⟨0, ⟨0, 1⟩, ⟨1, 1⟩, false, SelectionGoal.none⟩).2.1 ⟨rfl, by decide⟩
  exact h.trans (by decide)

/-- C2: the characterwise adjusters extend a non-reversed selection's end
column by one and clip it, with bias `Right` for delete and bias `Left` for
change, and leave a reversed selection untouched in both operations. -/
theorem C2_characterwise_adjuster_bias (m : DisplayMap) (sel : Selection) :
    (sel.reversed = false →
      delete_adjust m sel =
        { sel with «end» := m.clip_point ⟨sel.«end».row, sel.«end».column + 1⟩ Bias.Right } ∧
      change_adjust m sel =
        { sel with «end» := m.clip_point ⟨sel.«end».row, sel.«end».column + 1⟩ Bias.Left }) ∧
    (sel.reversed = true →
      delete_adjust m sel = sel ∧ change_adjust m sel = sel) := by
  constructor <;> intro h <;>
    exact ⟨by simp [delete_adjust, h], by simp [change_adjust, h]⟩

/-- Witness for C2: both adjusters evaluated on one non-reversed and one
reversed concrete selection. -/
theorem C2_characterwise_adjuster_bias_witness :
    delete_adjust ⟨[['a', 'b', 'c']], false⟩ ⟨0, ⟨0, 0⟩, ⟨0, 1⟩, false, SelectionGoal.none⟩ =
      ⟨0, ⟨0, 0⟩, ⟨0, 2⟩, false, SelectionGoal.none⟩ ∧
    change_adjust ⟨[['a', 'b', 'c']], false⟩ ⟨0, ⟨0, 0⟩, ⟨0, 1⟩, true, SelectionGoal.none⟩ =
      ⟨0, ⟨0, 0⟩, ⟨0, 1⟩, true, SelectionGoal.none⟩ := by
  constructor
  · have h := ((C2_characterwise_adjuster_bias ⟨[['a', 'b', 'c']], false⟩
      ⟨0, ⟨0, 0⟩, ⟨0, 1⟩, false, SelectionGoal.none⟩).1 rfl).1
    exact h.trans (by decide)
  · exact ((C2_characterwise_adjuster_bias ⟨[['a', 'b', 'c']], false⟩
      ⟨0, ⟨0, 0⟩, ⟨0, 1⟩, true, SelectionGoal.none⟩).2 rfl).2

/-- C8: when a selection's id is absent from the recorded-column table, the
linewise delete fix-up does not fail and keeps the current head column,
which is exactly the characterwise delete fix-up (no restoration). -/
theorem C8_missing_column_record (m : DisplayMap) (cols : List (Nat × Nat))
    (sel : Selection) (h : cols.lookup sel.id = none) :
    delete_line_fixup m cols sel = delete_fixup m sel := by
  unfold delete_line_fixup delete_fixup
  rw [h]

/-- Witness for C8: a concrete fix-up against a table that records a
different selection id. -/
theorem C8_missing_column_record_witness :
    delete_line_fixup ⟨[['a', 'b']], true⟩ [(7, 5)]
        ⟨0, ⟨0, 1⟩, ⟨0, 1⟩, true, SelectionGoal.none⟩ =
      delete_fixup ⟨[['a', 'b']], true⟩ ⟨0, ⟨0, 1⟩, ⟨0, 1⟩, true, SelectionGoal.none⟩ :=
  C8_missing_column_record ⟨[['a', 'b']], true⟩ [(7, 5)]
    ⟨0, ⟨0, 1⟩, ⟨0, 1⟩, true, SelectionGoal.none⟩ (by decide)

/-- C3, counterexample: on the two-line buffer `ab` / `cd` with a collapsed
selection on the last line at column 1, the source adjuster also moves
`end` to the end of its line in the pull-start-back case, while the claimed
three-way description leaves `end` untouched there. -/
theorem C3_delete_line_cex :
    delete_line_adjust ⟨[['a', 'b'], ['c', 'd']], false⟩
        ⟨0, ⟨1, 1⟩, ⟨1, 1⟩, true, SelectionGoal.none⟩ ≠
      delete_line_adjust_claimed ⟨[['a', 'b'], ['c', 'd']], false⟩
        ⟨0, ⟨1, 1⟩, ⟨1, 1⟩, true, SelectionGoal.none⟩ := by
  decide

/-- C3, amended: start moves to the beginning of its line; if end's row is
before the last row, end becomes the start of the following row and
nothing else changes; otherwise end is always moved to the end of the line
containing it, and additionally, when start's row is positive, start is
pulled back one row with its column set to that row's length. -/
theorem C3_delete_line_adjuster (m : DisplayMap) (sel : Selection) :
    (sel.«end».row < m.max_point.row →
      delete_line_adjust m sel =
        { sel with start := m.prev_line_boundary sel.start,
                   «end» := ⟨sel.«end».row + 1, 0⟩ }) ∧
    (¬ sel.«end».row < m.max_point.row ∧ sel.start.row > 0 →
      delete_line_adjust m sel =
        { sel with start := ⟨sel.start.row - 1, m.line_len (sel.start.row - 1)⟩,
                   «end» := m.next_line_boundary sel.«end» }) ∧
    (¬ sel.«end».row < m.max_point.row ∧ sel.start.row = 0 →
      delete_line_adjust m sel =
        { sel with start := m.prev_line_boundary sel.start,
                   «end» := m.next_line_boundary sel.«end» }) := by
  refine ⟨?_, ?_, ?_⟩
  · intro h
    simp [delete_line_adjust, DisplayMap.prev_line_boundary, h]
  · rintro ⟨h1, h2⟩
    simp [delete_line_adjust, DisplayMap.prev_line_boundary, h1, h2]
  · rintro ⟨h1, h2⟩
    simp [delete_line_adjust, DisplayMap.prev_line_boundary, h1, h2]

/-- Witness for the amended C3: the pull-start-back case on the
counterexample input, showing both the start pull-back and the end move. -/
theorem C3_delete_line_adjuster_witness :
    delete_line_adjust ⟨[['a', 'b'], ['c', 'd']], false⟩
        ⟨0, ⟨1, 1⟩, ⟨1, 1⟩, true, SelectionGoal.none⟩ =
      ⟨0, ⟨0, 2⟩, ⟨1, 2⟩, true, SelectionGoal.none⟩ := by
  have h := (C3_delete_line_adjuster ⟨[['a', 'b'], ['c', 'd']], false⟩
    ⟨0, ⟨1, 1⟩, ⟨1, 1⟩, true, SelectionGoal.none⟩).2.1 ⟨by decide, by decide⟩
  exact h.trans (by decide)

/-- C9: when the reversed-to-not-reversed repair fires on a start column
that is already zero, the decrement saturates at zero (natural-number
subtraction models `u32::saturating_sub`), so the repaired start is the
zero column clipped with bias `Left` and the total function never
aborts. -/
theorem C9_saturating_decrement (m : DisplayMap)
    (motion : DisplayPoint → SelectionGoal → DisplayPoint × SelectionGoal)
    (sel : Selection)
    (h1 : sel.reversed = true)
    (h2 : (motion_step m motion sel).reversed = false)
    (h3 : (motion_step m motion sel).start.column = 0) :
    (visual_motion_sel m motion sel).start =
      m.clip_point ⟨(motion_step m motion sel).start.row, 0⟩ Bias.Left := by
  simp only [motion_step] at h2 h3 ⊢
  simp [visual_motion_sel, h1, h2, h3]

/-- Witness for C9: a reversed selection whose tail sits at column zero of
the last line; moving the head past the tail fires the repair at column
zero and the cursor boundary stays at column zero. -/
theorem C9_saturating_decrement_witness :
    (visual_motion_sel ⟨[['a', 'b'], ['c', 'd']], false⟩
        (fun _ _ => (⟨1, 1⟩, SelectionGoal.none))
        ⟨0, ⟨0, 0⟩, ⟨1, 0⟩, true, SelectionGoal.none⟩).start = ⟨1, 0⟩ := by
  have h := C9_saturating_decrement ⟨[['a', 'b'], ['c', 'd']], false⟩
    (fun _ _ => (⟨1, 1⟩, SelectionGoal.none))
    ⟨0, ⟨0, 0⟩, ⟨1, 0⟩, true, SelectionGoal.none⟩ rfl (by decide) (by decide)
  exact h.trans (by decide)

/-- C10: the linewise change adjuster expands the removal range to exactly
the previous line boundary of start and the next line boundary of end, and
removing that range replaces the selected lines by a single empty line
without consuming any newline and without merging backward, also when the
selection reaches the last line. -/
theorem C10_change_line_range (st : EditorState)
    (h1 : st.sel.start.row ≤ st.sel.«end».row)
    (h2 : st.sel.«end».row < st.buffer.length) :
    (change_line_adjust ⟨st.buffer, false⟩ st.sel).start = ⟨st.sel.start.row, 0⟩ ∧
    (change_line_adjust ⟨st.buffer, false⟩ st.sel).«end» =
      ⟨st.sel.«end».row, DisplayMap.line_len ⟨st.buffer, false⟩ st.sel.«end».row⟩ ∧
    (change_line st).buffer =
      st.buffer.take st.sel.start.row ++ [[]] ++ st.buffer.drop (st.sel.«end».row + 1) := by
  refine ⟨rfl, rfl, ?_⟩
  simp [change_line, change_line_adjust, replaceRange, DisplayMap.prev_line_boundary,
    DisplayMap.next_line_boundary, DisplayMap.line_len, List.drop_length]

/-- Witness for C10: changing the middle line of a three-line document
leaves the first and last lines intact with one empty line between them. -/
theorem C10_change_line_range_witness :
    (change_line ⟨[['a'], ['b'], ['c']], false,
        ⟨0, ⟨1, 0⟩, ⟨1, 1⟩, false, SelectionGoal.none⟩, none, [], Mode.Normal⟩).buffer =
      [['a'], [], ['c']] := by
  have h := C10_change_line_range ⟨[['a'], ['b'], ['c']], false,
    ⟨0, ⟨1, 0⟩, ⟨1, 1⟩, false, SelectionGoal.none⟩, none, [], Mode.Normal⟩
    (by decide) (by decide)
  exact h.2.2.trans (by decide)

theorem change_line_buffer_eq (st : EditorState) :
    (change_line st).buffer =
      st.buffer.take st.sel.start.row ++ [[]] ++ st.buffer.drop (st.sel.«end».row + 1) := by
  simp [change_line, change_line_adjust, replaceRange, DisplayMap.prev_line_boundary,
    DisplayMap.next_line_boundary, DisplayMap.line_len, List.drop_length]

/-- C4, counterexample: on a one-line buffer, linewise change records
nothing at all — the head column keyed by the selection id is absent from
the operation's side table, so the claimed record-and-restore behaviour
fails. -/
theorem C4_change_line_cex :
    ¬ change_line_restores_claimed
        ⟨[['a', 'b', 'c']], false, ⟨0, ⟨0, 1⟩, ⟨0, 2⟩, false, SelectionGoal.none⟩,
         none, [], Mode.Normal⟩ := by
  decide

/-- C4, amended: linewise change records no per-selection columns and runs
no restoration pass; its cursor nonetheless lands at column zero of the
(now empty) resulting line, which coincides with the linewise-delete
restoration policy, since the recorded head column clipped against the
empty resulting line is also zero. -/
theorem C4_change_line_no_record (st : EditorState)
    (h1 : st.sel.start.row ≤ st.sel.«end».row)
    (h2 : st.sel.«end».row < st.buffer.length) :
    (change_line st).recorded = [] ∧
    (change_line st).sel.«end» = (change_line st).sel.start ∧
    (change_line st).sel.head = ⟨st.sel.start.row, 0⟩ ∧
    (change_line st).sel.head =
      DisplayMap.clip_point ⟨(change_line st).buffer, true⟩
        ⟨st.sel.start.row, st.sel.head.column⟩ Bias.Left := by
  have hhead : (change_line st).sel.head = ⟨st.sel.start.row, 0⟩ := rfl
  refine ⟨rfl, rfl, hhead, ?_⟩
  rw [hhead, change_line_buffer_eq st]
  have hA : (st.buffer.take st.sel.start.row).length = st.sel.start.row := by
    rw [List.length_take]; omega
  have hL : (st.buffer.take st.sel.start.row ++ [[]] ++
      st.buffer.drop (st.sel.«end».row + 1)).length =
      st.sel.start.row + 1 + (st.buffer.length - (st.sel.«end».row + 1)) := by
    simp [hA]
    omega
  have hline : (st.buffer.take st.sel.start.row ++ [[]] ++
      st.buffer.drop (st.sel.«end».row + 1)).getD st.sel.start.row [] = [] := by
    rw [List.append_assoc,
      List.getD_append_right _ _ _ _ (le_of_eq hA), hA]
    simp
  unfold DisplayMap.clip_point DisplayMap.maxColumn DisplayMap.maxRow DisplayMap.line_len
  dsimp only
  have hr : min st.sel.start.row
      ((st.buffer.take st.sel.start.row ++ [[]] ++
        st.buffer.drop (st.sel.«end».row + 1)).length - 1) = st.sel.start.row := by
    rw [hL]; omega
  rw [hr, hline]
  simp

/-- Witness for the amended C4: changing the middle line of a three-line
document records nothing and puts the cursor at column zero. -/
theorem C4_change_line_no_record_witness :
    (change_line ⟨[['a'], ['b'], ['c']], false,
        ⟨0, ⟨1, 0⟩, ⟨1, 1⟩, false, SelectionGoal.none⟩, none, [], Mode.Normal⟩).recorded = [] ∧
    (change_line ⟨[['a'], ['b'], ['c']], false,
        ⟨0, ⟨1, 0⟩, ⟨1, 1⟩, false, SelectionGoal.none⟩, none, [], Mode.Normal⟩).sel.head = ⟨1, 0⟩ := by
  have h := C4_change_line_no_record ⟨[['a'], ['b'], ['c']], false,
    ⟨0, ⟨1, 0⟩, ⟨1, 1⟩, false, SelectionGoal.none⟩, none, [], Mode.Normal⟩
    (by decide) (by decide)
  exact ⟨h.1, h.2.2.1⟩

/-- C5, counterexample: on a concrete one-line state the characterwise
change driver leaves line-end clipping disabled and runs no clip-and-
collapse fix-up, so the claimed common driver behaviour of both
characterwise operations fails. -/
theorem C5_driver_cex :
    ¬ (char_op_claimed
          ⟨[['a', 'b']], false, ⟨0, ⟨0, 0⟩, ⟨0, 0⟩, false, SelectionGoal.none⟩,
           none, [], Mode.Normal⟩
          (change_adjust ⟨[['a', 'b']], false⟩ ⟨0, ⟨0, 0⟩, ⟨0, 0⟩, false, SelectionGoal.none⟩)
          (change ⟨[['a', 'b']], false, ⟨0, ⟨0, 0⟩, ⟨0, 0⟩, false, SelectionGoal.none⟩,
           none, [], Mode.Normal⟩) ∧
        char_op_claimed
          ⟨[['a', 'b']], false, ⟨0, ⟨0, 0⟩, ⟨0, 0⟩, false, SelectionGoal.none⟩,
           none, [], Mode.Normal⟩
          (delete_adjust ⟨[['a', 'b']], false⟩ ⟨0, ⟨0, 0⟩, ⟨0, 0⟩, false, SelectionGoal.none⟩)
          (delete ⟨[['a', 'b']], false, ⟨0, ⟨0, 0⟩, ⟨0, 0⟩, false, SelectionGoal.none⟩,
           none, [], Mode.Normal⟩)) := by
  decide

/-- C5, amended: only the delete driver re-enables line-end clipping and
collapses the selection to its head clipped with bias `Left`; the change
driver also copies the adjusted range's content and replaces it with empty
text, but leaves line-end clipping disabled, keeps the collapse produced by
the empty replacement itself (cursor at the range start, unclipped) and
switches to insert mode. -/
theorem C5_driver_fixup (st : EditorState) :
    char_op_claimed st (delete_adjust ⟨st.buffer, false⟩ st.sel) (delete st) ∧
    (change st).clipboard =
      some (sliceRange st.buffer (change_adjust ⟨st.buffer, false⟩ st.sel).start
        (change_adjust ⟨st.buffer, false⟩ st.sel).«end», false) ∧
    (change st).buffer =
      replaceRange st.buffer (change_adjust ⟨st.buffer, false⟩ st.sel).start
        (change_adjust ⟨st.buffer, false⟩ st.sel).«end» ∧
    (change st).clipAtLineEnds = false ∧
    (change st).sel = insert_collapse (change_adjust ⟨st.buffer, false⟩ st.sel) ∧
    (change st).mode = Mode.Insert :=
  ⟨⟨rfl, rfl, rfl, rfl⟩, rfl, rfl, rfl, rfl, rfl⟩

theorem dp_lt_of_le_of_ne (a b : DisplayPoint) (h : a.Le b) (hne : a ≠ b) : a.Lt b := by
  unfold DisplayPoint.Le at h
  unfold DisplayPoint.Lt
  have hx : a.row = b.row → a.column = b.column → False := by
    intro hr hc
    have he : (⟨a.row, a.column⟩ : DisplayPoint) = ⟨b.row, b.column⟩ := by rw [hr, hc]
    exact hne he
  rcases h with h | ⟨hr, hc⟩
  · exact Or.inl h
  · rcases Nat.lt_or_ge a.column b.column with hlt | hge
    · exact Or.inr ⟨hr, hlt⟩
    · exact (hx hr (Nat.le_antisymm hc hge)).elim

theorem maxColumn_le_line_len (m : DisplayMap) (r : Nat) : m.maxColumn r ≤ m.line_len r := by
  unfold DisplayMap.maxColumn
  split <;> omega

theorem revinv_of_true (s : Selection) (h : s.reversed = true) : s.RevInv := by
  unfold Selection.RevInv Selection.head
  rw [h]
  simp

theorem revinv_of_false_ne (s : Selection) (h : s.reversed = false)
    (hne : s.«end» ≠ s.start) : s.RevInv := by
  unfold Selection.RevInv Selection.head
  rw [h]
  simp [hne]

theorem end_ne_start_of_revinv (s : Selection) (hInv : s.RevInv)
    (hrev : s.reversed = false) : s.«end» ≠ s.start := by
  intro hh
  have hh2 : s.head = s.start := by
    unfold Selection.head
    rw [hrev]
    exact hh
  have hb := hInv.mpr hh2
  rw [hrev] at hb
  exact Bool.noConfusion hb

theorem revinv_extend (m : DisplayMap) (sel : Selection) (bias : Bias)
    (hInv : sel.RevInv) (hLe : sel.start.Le sel.«end») (hVal : m.Valid sel.«end»)
    (hrev : sel.reversed = false) :
    Selection.RevInv
      { sel with «end» := m.clip_point ⟨sel.«end».row, sel.«end».column + 1⟩ bias } := by
  refine revinv_of_false_ne _ ?_ ?_
  · exact hrev
  have hne := end_ne_start_of_revinv sel hInv hrev
  have hlt := dp_lt_of_le_of_ne _ _ hLe (Ne.symm hne)
  have hle2 := dp_le_clip_succ m sel.«end» bias hVal
  exact Ne.symm (dp_ne_of_lt _ _ (dp_lt_le_trans _ _ _ hlt hle2))

theorem delete_line_adjust_eq1 (m : DisplayMap) (sel : Selection)
    (h : sel.«end».row < m.max_point.row) :
    delete_line_adjust m sel =
      { sel with start := ⟨sel.start.row, 0⟩, «end» := ⟨sel.«end».row + 1, 0⟩ } := by
  simp [delete_line_adjust, DisplayMap.prev_line_boundary, h]

theorem delete_line_adjust_eq2 (m : DisplayMap) (sel : Selection)
    (h1 : ¬ sel.«end».row < m.max_point.row) (h2 : 0 < sel.start.row) :
    delete_line_adjust m sel =
      { sel with start := ⟨sel.start.row - 1, m.line_len (sel.start.row - 1)⟩,
                 «end» := ⟨sel.«end».row, m.line_len sel.«end».row⟩ } := by
  simp [delete_line_adjust, DisplayMap.prev_line_boundary,
    DisplayMap.next_line_boundary, h1, h2]

theorem delete_line_adjust_eq3 (m : DisplayMap) (sel : Selection)
    (h1 : ¬ sel.«end».row < m.max_point.row) (h2 : sel.start.row = 0) :
    delete_line_adjust m sel =
      { sel with start := ⟨sel.start.row, 0⟩,
                 «end» := ⟨sel.«end».row, m.line_len sel.«end».row⟩ } := by
  simp [delete_line_adjust, DisplayMap.prev_line_boundary,
    DisplayMap.next_line_boundary, h1, h2]

theorem visual_motion_sel_start_le_end (m : DisplayMap)
    (motion : DisplayPoint → SelectionGoal → DisplayPoint × SelectionGoal)
    (sel : Selection) (h1 : m.Valid sel.start) :
    DisplayPoint.Le (visual_motion_sel m motion sel).start
      (visual_motion_sel m motion sel).«end» := by
  simp only [visual_motion_sel, Selection.set_head]
  by_cases hle : DisplayPoint.Le (m.clip_at_line_end (motion sel.head sel.goal).1) sel.tail
  · rw [if_pos hle]
    cases hrev : sel.reversed
    · simp only [hrev]
      simp
      have htail : sel.tail = sel.start := by
        simp [Selection.tail, hrev]
      rw [htail] at hle ⊢
      exact dp_le_trans _ _ _ hle (dp_le_clip_succ m sel.start Bias.Right h1)
    · simp only [hrev]
      simp
      exact hle
  · rw [if_neg hle]
    have hlt := dp_lt_of_not_le _ _ hle
    cases hrev : sel.reversed
    · simp only [hrev]
      simp
      exact dp_le_of_lt _ _ hlt
    · simp only [hrev]
      simp
      have hc := dp_clip_le_self m ⟨sel.tail.row, sel.tail.column - 1⟩ Bias.Left
      have hp := dp_pred_le sel.tail.row sel.tail.column
      exact dp_le_trans _ _ _ (dp_le_trans _ _ _ hc hp) (dp_le_of_lt _ _ hlt)

theorem visual_motion_sel_revinv (m : DisplayMap)
    (motion : DisplayPoint → SelectionGoal → DisplayPoint × SelectionGoal)
    (sel : Selection) : (visual_motion_sel m motion sel).RevInv := by
  simp only [visual_motion_sel, Selection.set_head]
  by_cases hle : DisplayPoint.Le (m.clip_at_line_end (motion sel.head sel.goal).1) sel.tail
  · rw [if_pos hle]
    cases hrev : sel.reversed
    · simp only [hrev]
      simp
      exact revinv_of_true _ rfl
    · simp only [hrev]
      simp
      exact revinv_of_true _ rfl
  · rw [if_neg hle]
    have hlt := dp_lt_of_not_le _ _ hle
    cases hrev : sel.reversed
    · simp only [hrev]
      simp
      exact revinv_of_false_ne _ rfl (Ne.symm (dp_ne_of_lt _ _ hlt))
    · simp only [hrev]
      simp
      apply revinv_of_false_ne _ rfl
      have hc := dp_clip_le_self m ⟨sel.tail.row, sel.tail.column - 1⟩ Bias.Left
      have hp := dp_pred_le sel.tail.row sel.tail.column
      exact Ne.symm (dp_ne_of_lt _ _
        (dp_le_lt_trans _ _ _ (dp_le_trans _ _ _ hc hp) hlt))

theorem set_head_revinv (sel : Selection) (nh : DisplayPoint) (g : SelectionGoal) :
    (sel.set_head nh g).RevInv := by
  unfold Selection.set_head
  by_cases hle : DisplayPoint.Le nh sel.tail
  · rw [if_pos hle]
    exact revinv_of_true _ rfl
  · rw [if_neg hle]
    exact revinv_of_false_ne _ rfl
      (Ne.symm (dp_ne_of_lt _ _ (dp_lt_of_not_le _ _ hle)))

theorem change_adjust_revinv (m : DisplayMap) (sel : Selection) (hInv : sel.RevInv)
    (hLe : sel.start.Le sel.«end») (hVal : m.Valid sel.«end») :
    (change_adjust m sel).RevInv := by
  cases hrev : sel.reversed
  · rw [show change_adjust m sel =
      { sel with «end» := m.clip_point ⟨sel.«end».row, sel.«end».column + 1⟩ Bias.Left }
      from by simp [change_adjust, hrev]]
    exact revinv_extend m sel Bias.Left hInv hLe hVal hrev
  · rw [show change_adjust m sel = sel from by simp [change_adjust, hrev]]
    exact hInv

theorem delete_adjust_revinv (m : DisplayMap) (sel : Selection) (hInv : sel.RevInv)
    (hLe : sel.start.Le sel.«end») (hVal : m.Valid sel.«end») :
    (delete_adjust m sel).RevInv := by
  cases hrev : sel.reversed
  · rw [show delete_adjust m sel =
      { sel with «end» := m.clip_point ⟨sel.«end».row, sel.«end».column + 1⟩ Bias.Right }
      from by simp [delete_adjust, hrev]]
    exact revinv_extend m sel Bias.Right hInv hLe hVal hrev
  · rw [show delete_adjust m sel = sel from by simp [delete_adjust, hrev]]
    exact hInv

theorem change_line_adjust_revinv (m : DisplayMap) (sel : Selection) (hInv : sel.RevInv)
    (hLe : sel.start.Le sel.«end») (hVal : m.Valid sel.«end») :
    (change_line_adjust m sel).RevInv := by
  cases hrev : sel.reversed
  · refine revinv_of_false_ne _ ?_ ?_
    · exact hrev
    intro heq
    have hrow := congrArg DisplayPoint.row heq
    have hcol := congrArg DisplayPoint.column heq
    simp [change_line_adjust, DisplayMap.prev_line_boundary,
      DisplayMap.next_line_boundary] at hrow hcol
    have hne := end_ne_start_of_revinv sel hInv hrev
    have hlt := dp_lt_of_le_of_ne _ _ hLe (Ne.symm hne)
    unfold DisplayPoint.Lt at hlt
    have hv2 := hVal.2
    have hm := maxColumn_le_line_len m sel.«end».row
    unfold DisplayMap.line_len at hcol
    unfold DisplayMap.line_len at hm
    omega
  · exact revinv_of_true _ (by simpa [change_line_adjust] using hrev)

theorem delete_line_adjust_revinv (m : DisplayMap) (sel : Selection) (hInv : sel.RevInv)
    (hLe : sel.start.Le sel.«end») (hVal : m.Valid sel.«end») :
    (delete_line_adjust m sel).RevInv := by
  have hrevkeep : (delete_line_adjust m sel).reversed = sel.reversed := by
    by_cases hb1 : sel.«end».row < m.max_point.row
    · rw [delete_line_adjust_eq1 m sel hb1]
    · by_cases hb2 : 0 < sel.start.row
      · rw [delete_line_adjust_eq2 m sel hb1 hb2]
      · rw [delete_line_adjust_eq3 m sel hb1 (by omega)]
  cases hrev : sel.reversed
  · have hne := end_ne_start_of_revinv sel hInv hrev
    have hlt := dp_lt_of_le_of_ne _ _ hLe (Ne.symm hne)
    unfold DisplayPoint.Lt at hlt
    apply revinv_of_false_ne _ (hrevkeep.trans hrev)
    by_cases hb1 : sel.«end».row < m.max_point.row
    · rw [delete_line_adjust_eq1 m sel hb1]
      intro heq
      have hrow := congrArg DisplayPoint.row heq
      dsimp only at hrow
      omega
    · by_cases hb2 : 0 < sel.start.row
      · rw [delete_line_adjust_eq2 m sel hb1 hb2]
        intro heq
        have hrow := congrArg DisplayPoint.row heq
        dsimp only at hrow
        omega
      · rw [delete_line_adjust_eq3 m sel hb1 (by omega)]
        intro heq
        have hrow := congrArg DisplayPoint.row heq
        have hcol := congrArg DisplayPoint.column heq
        dsimp only at hrow hcol
        have hv2 := hVal.2
        have hm := maxColumn_le_line_len m sel.«end».row
        omega
  · exact revinv_of_true _ (hrevkeep.trans hrev)

/-- C6: after each of the five operations the selection satisfies
`start ≤ end`: for motion extension this needs the input boundaries to be
valid document positions; the four committing operations end with the
selection collapsed to a single cursor, where the bound is immediate. -/
theorem C6_ordering_invariant (m : DisplayMap)
    (motion : DisplayPoint → SelectionGoal → DisplayPoint × SelectionGoal)
    (sel : Selection) (st : EditorState)
    (h1 : m.Valid sel.start) (h2 : m.Valid sel.«end») :
    DisplayPoint.Le (visual_motion_sel m motion sel).start
      (visual_motion_sel m motion sel).«end» ∧
    DisplayPoint.Le ((change st).sel).start ((change st).sel).«end» ∧
    DisplayPoint.Le ((delete st).sel).start ((delete st).sel).«end» ∧
    DisplayPoint.Le ((change_line st).sel).start ((change_line st).sel).«end» ∧
    DisplayPoint.Le ((delete_line st).sel).start ((delete_line st).sel).«end» :=
  ⟨visual_motion_sel_start_le_end m motion sel h1,
   dp_le_refl _, dp_le_refl _, dp_le_refl _, dp_le_refl _⟩

/-- Witness for C6: all five operations on a concrete one-line state. -/
theorem C6_ordering_invariant_witness :
    DisplayPoint.Le
      (visual_motion_sel ⟨[['a', 'b']], false⟩ (fun _ _ => (⟨0, 2⟩, SelectionGoal.none))
        ⟨0, ⟨0, 0⟩, ⟨0, 1⟩, false, SelectionGoal.none⟩).start
      (visual_motion_sel ⟨[['a', 'b']], false⟩ (fun _ _ => (⟨0, 2⟩, SelectionGoal.none))
        ⟨0, ⟨0, 0⟩, ⟨0, 1⟩, false, SelectionGoal.none⟩).«end» ∧
    DisplayPoint.Le
      ((change ⟨[['a', 'b']], false, ⟨0, ⟨0, 0⟩, ⟨0, 1⟩, false, SelectionGoal.none⟩,
        none, [], Mode.Normal⟩).sel).start
      ((change ⟨[['a', 'b']], false, ⟨0, ⟨0, 0⟩, ⟨0, 1⟩, false, SelectionGoal.none⟩,
        none, [], Mode.Normal⟩).sel).«end» ∧
    DisplayPoint.Le
      ((delete ⟨[['a', 'b']], false, ⟨0, ⟨0, 0⟩, ⟨0, 1⟩, false, SelectionGoal.none⟩,
        none, [], Mode.Normal⟩).sel).start
      ((delete ⟨[['a', 'b']], false, ⟨0, ⟨0, 0⟩, ⟨0, 1⟩, false, SelectionGoal.none⟩,
        none, [], Mode.Normal⟩).sel).«end» ∧
    DisplayPoint.Le
      ((change_line ⟨[['a', 'b']], false, ⟨0, ⟨0, 0⟩, ⟨0, 1⟩, false, SelectionGoal.none⟩,
        none, [], Mode.Normal⟩).sel).start
      ((change_line ⟨[['a', 'b']], false, ⟨0, ⟨0, 0⟩, ⟨0, 1⟩, false, SelectionGoal.none⟩,
        none, [], Mode.Normal⟩).sel).«end» ∧
    DisplayPoint.Le
      ((delete_line ⟨[['a', 'b']], false, ⟨0, ⟨0, 0⟩, ⟨0, 1⟩, false, SelectionGoal.none⟩,
        none, [], Mode.Normal⟩).sel).start
      ((delete_line ⟨[['a', 'b']], false, ⟨0, ⟨0, 0⟩, ⟨0, 1⟩, false, SelectionGoal.none⟩,
        none, [], Mode.Normal⟩).sel).«end» :=
  C6_ordering_invariant ⟨[['a', 'b']], false⟩ (fun _ _ => (⟨0, 2⟩, SelectionGoal.none))
    ⟨0, ⟨0, 0⟩, ⟨0, 1⟩, false, SelectionGoal.none⟩
    ⟨[['a', 'b']], false, ⟨0, ⟨0, 0⟩, ⟨0, 1⟩, false, SelectionGoal.none⟩,
      none, [], Mode.Normal⟩ (by decide) (by decide)

/-- C7: after every mutation of the selection — the head assignment, the
motion-extension repair, each of the four adjusters, both fix-ups, the
collapse produced by the edit, the explicit collapse, and each of the five
operations' final states — the reversed flag equals the proposition that
the head coincides with start, including the boundary case where start
equals end (a collapsed selection carries `reversed = true`).  The
adjusters need the input to satisfy the same invariant with ordered, valid
boundaries. -/
theorem C7_reversal_consistency (m : DisplayMap)
    (motion : DisplayPoint → SelectionGoal → DisplayPoint × SelectionGoal)
    (sel : Selection) (nh p : DisplayPoint) (g : SelectionGoal)
    (cols : List (Nat × Nat)) (st : EditorState)
    (hInv : sel.RevInv) (hLe : sel.start.Le sel.«end») (hVal : m.Valid sel.«end») :
    (visual_motion_sel m motion sel).RevInv ∧
    (sel.set_head nh g).RevInv ∧
    (change_adjust m sel).RevInv ∧
    (delete_adjust m sel).RevInv ∧
    (change_line_adjust m sel).RevInv ∧
    (delete_line_adjust m sel).RevInv ∧
    (delete_fixup m sel).RevInv ∧
    (delete_line_fixup m cols sel).RevInv ∧
    (insert_collapse sel).RevInv ∧
    (sel.collapse_to p g).RevInv ∧
    ((change st).sel).RevInv ∧
    ((delete st).sel).RevInv ∧
    ((change_line st).sel).RevInv ∧
    ((delete_line st).sel).RevInv :=
  ⟨visual_motion_sel_revinv m motion sel,
   set_head_revinv sel nh g,
   change_adjust_revinv m sel hInv hLe hVal,
   delete_adjust_revinv m sel hInv hLe hVal,
   change_line_adjust_revinv m sel hInv hLe hVal,
   delete_line_adjust_revinv m sel hInv hLe hVal,
   revinv_of_true _ rfl,
   revinv_of_true _ rfl,
   revinv_of_true _ rfl,
   revinv_of_true _ rfl,
   revinv_of_true _ rfl,
   revinv_of_true _ rfl,
   revinv_of_true _ rfl,
   revinv_of_true _ rfl⟩

/-- Witness for C7: the full conjunction instantiated on a concrete
one-line state whose selection satisfies the invariant. -/
theorem C7_reversal_consistency_witness :
    (visual_motion_sel ⟨[['a', 'b']], false⟩ (fun _ _ => (⟨0, 2⟩, SelectionGoal.none))
      ⟨0, ⟨0, 0⟩, ⟨0, 1⟩, false, SelectionGoal.none⟩).RevInv ∧
    (Selection.set_head ⟨0, ⟨0, 0⟩, ⟨0, 1⟩, false, SelectionGoal.none⟩ ⟨0, 1⟩
      SelectionGoal.none).RevInv ∧
    (change_adjust ⟨[['a', 'b']], false⟩
      ⟨0, ⟨0, 0⟩, ⟨0, 1⟩, false, SelectionGoal.none⟩).RevInv ∧
    (delete_adjust ⟨[['a', 'b']], false⟩
      ⟨0, ⟨0, 0⟩, ⟨0, 1⟩, false, SelectionGoal.none⟩).RevInv ∧
    (change_line_adjust ⟨[['a', 'b']], false⟩
      ⟨0, ⟨0, 0⟩, ⟨0, 1⟩, false, SelectionGoal.none⟩).RevInv ∧
    (delete_line_adjust ⟨[['a', 'b']], false⟩
      ⟨0, ⟨0, 0⟩, ⟨0, 1⟩, false, SelectionGoal.none⟩).RevInv ∧
    (delete_fixup ⟨[['a', 'b']], false⟩
      ⟨0, ⟨0, 0⟩, ⟨0, 1⟩, false, SelectionGoal.none⟩).RevInv ∧
    (delete_line_fixup ⟨[['a', 'b']], false⟩ []
      ⟨0, ⟨0, 0⟩, ⟨0, 1⟩, false, SelectionGoal.none⟩).RevInv ∧
    (insert_collapse ⟨0, ⟨0, 0⟩, ⟨0, 1⟩, false, SelectionGoal.none⟩).RevInv ∧
    (Selection.collapse_to ⟨0, ⟨0, 0⟩, ⟨0, 1⟩, false, SelectionGoal.none⟩ ⟨0, 0⟩
      SelectionGoal.none).RevInv ∧
    ((change ⟨[['a', 'b']], false, ⟨0, ⟨0, 0⟩, ⟨0, 1⟩, false, SelectionGoal.none⟩,
      none, [], Mode.Normal⟩).sel).RevInv ∧
    ((delete ⟨[['a', 'b']], false, ⟨0, ⟨0, 0⟩, ⟨0, 1⟩, false, SelectionGoal.none⟩,
      none, [], Mode.Normal⟩).sel).RevInv ∧
    ((change_line ⟨[['a', 'b']], false, ⟨0, ⟨0, 0⟩, ⟨0, 1⟩, false, SelectionGoal.none⟩,
      none, [], Mode.Normal⟩).sel).RevInv ∧
    ((delete_line ⟨[['a', 'b']], false, ⟨0, ⟨0, 0⟩, ⟨0, 1⟩, false, SelectionGoal.none⟩,
      none, [], Mode.Normal⟩).sel).RevInv :=
  C7_reversal_consistency ⟨[['a', 'b']], false⟩ (fun _ _ => (⟨0, 2⟩, SelectionGoal.none))
    ⟨0, ⟨0, 0⟩, ⟨0, 1⟩, false, SelectionGoal.none⟩ ⟨0, 1⟩ ⟨0, 0⟩ SelectionGoal.none []
    ⟨[['a', 'b']], false, ⟨0, ⟨0, 0⟩, ⟨0, 1⟩, false, SelectionGoal.none⟩,
      none, [], Mode.Normal⟩ (by decide) (by decide) (by decide)

end VisualVim
